import Mathlib

/-!
Verification of the binlog file reader (binlogfile2sql_util.py).

The development embeds the reader as Lean functions:
* the byte-level frame reader of `BinLogFileReader.fetchone` (magic check,
  19-byte header, body read) over a `List Nat` of file bytes;
* the event-level driver loop of `fetchone` (position filters, rotate
  handling, timestamp skip, table-map registry, final event filter) over a
  list of decoded packets;
* `_allowed_event_list` over a `Finset` of event classes;
* `__get_table_information` with its retry loop, abstracting the MySQL
  query as an oracle from attempt number to outcome.
-/

deriving instance DecidableEq for Except

/-- Exceptions that the reader code can raise, one constructor per Python
exception class that appears in the source. -/
inductive PyError where
  | badMagicBytes
  | eventSizeTooSmall
  | structError
  | typeError
  | keyError
deriving DecidableEq, Repr

/-- The event classes imported by the source from pymysqlreplication
(tagged variant of the DecodedEvent). -/
inductive EventClass where
  | Query
  | Rotate
  | FormatDescription
  | Xid
  | Gtid
  | Stop
  | BeginLoadQuery
  | ExecuteLoadQuery
  | WriteRows
  | UpdateRows
  | DeleteRows
  | TableMap
  | Heartbeat
  | NotImplemented
deriving DecidableEq, Repr

/-- Binlog event-type code of RotateEvent (pymysqlreplication constant). -/
def ROTATE_EVENT : Nat := 4

/-- Binlog event-type code of TableMapEvent (pymysqlreplication constant). -/
def TABLE_MAP_EVENT : Nat := 19

/-- Header event-type code carried by each event class. -/
def eventTypeCode : EventClass → Nat
  | .Query => 2
  | .Stop => 3
  | .Rotate => 4
  | .FormatDescription => 15
  | .Xid => 16
  | .BeginLoadQuery => 17
  | .ExecuteLoadQuery => 18
  | .TableMap => 19
  | .Heartbeat => 27
  | .WriteRows => 30
  | .UpdateRows => 31
  | .DeleteRows => 32
  | .Gtid => 33
  | .NotImplemented => 0

/-- The default event set of `_allowed_event_list` when only_events is None
(source lines 261-276). -/
def defaultEventSet : Finset EventClass :=
  {.Query, .Rotate, .Stop, .FormatDescription, .Xid, .Gtid, .BeginLoadQuery,
   .ExecuteLoadQuery, .UpdateRows, .WriteRows, .DeleteRows, .TableMap,
   .Heartbeat, .NotImplemented}

/-- Python set.remove applied in sequence for each element of
ignored_events: removing an element that is not a member raises KeyError
(source lines 277-279). -/
def removeEvents (s : Finset EventClass) : List EventClass → Except PyError (Finset EventClass)
  | [] => .ok s
  | e :: rest => if e ∈ s then removeEvents (s.erase e) rest else .error .keyError

/-- The starting event set of _allowed_event_list: set(only_events) when
given, the default set otherwise (source lines 258-276). -/
def baseEvents (only_events : Option (List EventClass)) : Finset EventClass :=
  match only_events with
  | some l => l.toFinset
  | none => defaultEventSet

/-- The event set after the ignored_events removals of source lines
277-279. -/
def removedEvents (only_events ignored_events : Option (List EventClass)) :
    Except PyError (Finset EventClass) :=
  match ignored_events with
  | some l => removeEvents (baseEvents only_events) l
  | none => .ok (baseEvents only_events)

/-- BinLogFileReader._allowed_event_list (source lines 256-285): start from
only_events or the default set, remove each ignored event (KeyError on a
missing member), then, when filter_non_implemented_events is set, discard
NotImplementedEvent inside try/except so that step never raises. -/
def allowedEventList (only_events ignored_events : Option (List EventClass))
    (filter_non_implemented_events : Bool) : Except PyError (Finset EventClass) :=
  match removedEvents only_events ignored_events with
  | .error e => .error e
  | .ok evs => .ok (if filter_non_implemented_events then evs.erase .NotImplemented else evs)

theorem allowedEventList_default :
    allowedEventList none none false = .ok defaultEventSet := rfl

/-- A decoded binlog packet as seen by the fetchone driver loop: the common
header fields plus the variant payload fields the loop reads (Rotate carries
position and next_binlog, TableMap carries table_id and its schema). -/
structure Packet where
  timestamp : Nat
  cls : EventClass
  log_pos : Nat
  position : Nat
  next_binlog : String
  table_id : Nat
  table_schema : Nat
deriving DecidableEq, Repr

/-- The constant configuration of a reader: start_pos, stop_pos,
skip_to_timestamp (each None or an int, as in the constructor) and the
computed allowed event set. -/
structure ReaderCfg where
  start_pos : Option Nat
  stop_pos : Option Nat
  skip_to_timestamp : Option Nat
  allowed_events : Finset EventClass
deriving DecidableEq

/-- The mutable reader state touched by fetchone: self.log_pos,
self.log_file and the table-id registry self.table_map. -/
structure ReaderState where
  log_pos : Option Nat
  log_file : Option String
  table_map : List (Nat × Nat)
deriving DecidableEq, Repr

/-- The packet-level allowed set (source lines 80-81): TableMapEvent and
RotateEvent are always included because the loop needs them. -/
def allowedInPacket (cfg : ReaderCfg) : Finset EventClass :=
  ({.TableMap, .Rotate} : Finset EventClass) ∪ cfg.allowed_events

/-- Modelled from the spec: the packet-level decoding done by
pymysqlreplication.BinLogPacketWrapper, which is not part of the repository
source. Spec 4.2: the output is a DecodedEvent, "or None if the frame type
is outside the allowed-in-packet set (filtered cheaply without full
decoding)". -/
def decodePacket (cfg : ReaderCfg) (p : Packet) : Option EventClass :=
  if p.cls ∈ allowedInPacket cfg then some p.cls else none

/-- Python truthiness of an optional integer: None and 0 are falsy. -/
def truthyOpt : Option Nat → Bool
  | none => false
  | some n => n != 0

/-- The stop-position test of source line 198:
self.stop_pos and binlog_event.log_pos >= self.stop_pos. -/
def stopHit (cfg : ReaderCfg) (p : Packet) : Bool :=
  truthyOpt cfg.stop_pos && decide (cfg.stop_pos.getD 0 ≤ p.log_pos)

/-- The timestamp test of source line 241:
self.skip_to_timestamp and binlog_event.timestamp < self.skip_to_timestamp. -/
def tsSkip (cfg : ReaderCfg) (p : Packet) : Bool :=
  truthyOpt cfg.skip_to_timestamp && decide (p.timestamp < cfg.skip_to_timestamp.getD 0)

/-- Python dict item assignment self.table_map[table_id] = schema: replace
the value when the key is present, append otherwise. -/
def tableMapPut (m : List (Nat × Nat)) (k v : Nat) : List (Nat × Nat) :=
  if m.any (fun kv => kv.1 = k) then
    m.map (fun kv => if kv.1 = k then (k, v) else kv)
  else m ++ [(k, v)]

/-- State update of source lines 201-215: a ROTATE_EVENT sets log_pos to the
rotation position, log_file to next_binlog and empties table_map; otherwise
a nonzero log_pos advances self.log_pos. -/
def updState (st : ReaderState) (p : Packet) (c : EventClass) : ReaderState :=
  if eventTypeCode c = ROTATE_EVENT then
    ⟨some p.position, some p.next_binlog, []⟩
  else if p.log_pos ≠ 0 then { st with log_pos := some p.log_pos }
  else st

/-- State update of source lines 244-247: a TABLE_MAP_EVENT stores the
table schema under its table id. -/
def tmState (st : ReaderState) (p : Packet) (c : EventClass) : ReaderState :=
  if eventTypeCode c = TABLE_MAP_EVENT then
    { st with table_map := tableMapPut st.table_map p.table_id p.table_schema }
  else st

/-- The outcome of one iteration of the while loop in fetchone: return the
event, continue, or break out of the loop. -/
inductive StepOut where
  | emit (p : Packet)
  | skip
  | halt
deriving DecidableEq, Repr

/-- One iteration of the fetchone while loop (source lines 195-254) on an
already decoded packet: packet-level filter, start-position filter (a
comparison against a None start_pos raises TypeError), stop-position check,
rotate and log_pos state updates, skip-to-timestamp filter, table-map
registration, final allowed-event filter. -/
def processOne (cfg : ReaderCfg) (st : ReaderState) (p : Packet) :
    Except PyError (ReaderState × StepOut) :=
  match decodePacket cfg p with
  | none => .ok (st, .skip)
  | some c =>
    match cfg.start_pos with
    | none => .error .typeError
    | some s =>
      if p.log_pos < s then .ok (st, .skip)
      else if stopHit cfg p then .ok (st, .halt)
      else if tsSkip cfg p then .ok (updState st p c, .skip)
      else if c ∈ cfg.allowed_events then .ok (tmState (updState st p c) p c, .emit p)
      else .ok (tmState (updState st p c) p c, .skip)

/-- BinLogFileReader.fetchone on a stream of decoded packets: loops until an
event is returned, the packets run out, or the stop position breaks the
loop (returning None, the end-of-stream value). Returns the emitted event
if any, the reader state, and the unconsumed packets. -/
def fetchone (cfg : ReaderCfg) :
    ReaderState → List Packet → Except PyError (Option Packet × ReaderState × List Packet)
  | st, [] => .ok (none, st, [])
  | st, p :: rest =>
    match processOne cfg st p with
    | .error e => .error e
    | .ok (st', .emit q) => .ok (some q, st', rest)
    | .ok (st', .skip) => fetchone cfg st' rest
    | .ok (st', .halt) => .ok (none, st', rest)

/-- The full event sequence produced by iterating fetchone until it returns
the end-of-stream value (source line 330-331, iter(fetchone, None)). -/
def emittedEvents (cfg : ReaderCfg) :
    ReaderState → List Packet → Except PyError (List Packet)
  | _, [] => .ok []
  | st, p :: rest =>
    match processOne cfg st p with
    | .error e => .error e
    | .ok (st', .emit q) =>
      match emittedEvents cfg st' rest with
      | .ok l => .ok (q :: l)
      | .error e => .error e
    | .ok (st', .skip) => emittedEvents cfg st' rest
    | .ok (_, .halt) => .ok []

/-- True for the events kept when NotImplementedEvent values are deleted. -/
def keepEvent (q : Packet) : Bool :=
  decide (q.cls ≠ EventClass.NotImplemented)

/-- Reader construction (source lines 49-103) restricted to the fields the
driver loop reads: _allowed_event_list runs during construction (and can
raise KeyError), start_pos is set to the log_pos argument unchanged, and
the initial table_map is empty. -/
def mkReader (log_pos : Option Nat) (log_file : Option String)
    (stop_pos skip_to_timestamp : Option Nat)
    (only_events ignored_events : Option (List EventClass))
    (filter_non_implemented_events : Bool) :
    Except PyError (ReaderCfg × ReaderState) :=
  match allowedEventList only_events ignored_events filter_non_implemented_events with
  | .error e => .error e
  | .ok evs =>
    .ok (⟨log_pos, stop_pos, skip_to_timestamp, evs⟩, ⟨log_pos, log_file, []⟩)

/-- Little-endian integer value of a byte list (struct.unpack fields). -/
def leNat (bs : List Nat) : Nat :=
  bs.foldr (fun b acc => b + 256 * acc) 0

/-- The expected magic bytes of a binlog file (source line 47). -/
def expectedMagic : List Nat := [0xfe, 0x62, 0x69, 0x6e]

/-- BinLogFileReader.__connect_to_stream (source lines 140-153): read the
first 4 bytes and raise BadMagicBytesError unless they match; on success
the cursor sits at offset 4. -/
def connectToStream (file : List Nat) : Except PyError Nat :=
  if file.take 4 = expectedMagic then .ok 4 else .error .badMagicBytes

/-- A raw event frame: the six unpacked header fields plus the body bytes. -/
structure RawFrame where
  timestamp : Nat
  event_type : Nat
  server_id : Nat
  event_size : Nat
  log_pos : Nat
  flags : Nat
  body : List Nat
deriving DecidableEq, Repr

/-- The frame read of fetchone (source lines 163-182): self._file.read(19)
returns the bytes available; an empty read breaks the loop (end of stream);
a nonempty read of fewer than 19 bytes makes struct.unpack raise; otherwise
the header is unpacked little-endian and self._file.read(event_size - 19)
reads the body — a Python read with a negative argument (event_size < 19)
reads every remaining byte. Returns the frame and the new cursor. -/
def nextFrame (file : List Nat) (pos : Nat) :
    Except PyError (Option (RawFrame × Nat)) :=
  let header := (file.drop pos).take 19
  if header = [] then .ok none
  else if header.length ≠ 19 then .error .structError
  else
    let timestamp := leNat (header.take 4)
    let event_type := header.getD 4 0
    let server_id := leNat ((header.drop 5).take 4)
    let event_size := leNat ((header.drop 9).take 4)
    let log_pos := leNat ((header.drop 13).take 4)
    let flags := leNat (header.drop 17)
    let body :=
      if event_size < 19 then file.drop (pos + 19)
      else (file.drop (pos + 19)).take (event_size - 19)
    .ok (some (⟨timestamp, event_type, server_id, event_size, log_pos, flags, body⟩,
               pos + 19 + body.length))

/-- The first frame read after opening a file: magic validation followed by
one header/body read, as the first fetchone call performs. -/
def firstFetchFrame (file : List Nat) : Except PyError (Option RawFrame) :=
  match connectToStream file with
  | .error e => .error e
  | .ok pos =>
    match nextFrame file pos with
    | .error e => .error e
    | .ok none => .ok none
    | .ok (some (f, _)) => .ok (some f)

/-- MYSQL_EXPECTED_ERROR_CODES (source lines 33-35): 2013 connection lost,
2006 server has gone away. -/
def MYSQL_EXPECTED_ERROR_CODES : List Nat := [2013, 2006]

/-- Outcome of one execution of the metadata column query: the fetched rows
or a pymysql.OperationalError with its error code. -/
inductive AttemptResult where
  | success (rows : Nat)
  | opError (code : Nat)
deriving DecidableEq, Repr

/-- Result of __get_table_information together with the connection state it
leaves behind: the returned value (or the raised error code), whether
self.__connected_ctl is set afterwards, and how many times
__connect_to_ctl ran. -/
structure CtlTrace where
  result : Except Nat (Option Nat)
  connectedAfter : Bool
  reconnects : Nat
deriving DecidableEq, Repr

/-- The `for i in range(1, 3)` loop body of __get_table_information (source
lines 287-328): reconnect when not connected, run the query; on an
OperationalError whose code is in MYSQL_EXPECTED_ERROR_CODES mark the
connection closed and continue, otherwise re-raise; when the loop is
exhausted the Python function falls through and returns None. -/
def gtiLoop (att : Nat → AttemptResult) :
    List Nat → Bool → Nat → CtlTrace
  | [], conn, rc => ⟨.ok none, conn, rc⟩
  | i :: rest, conn, rc =>
    let rc' := if conn then rc else rc + 1
    match att i with
    | .success r => ⟨.ok (some r), true, rc'⟩
    | .opError c =>
      if c ∈ MYSQL_EXPECTED_ERROR_CODES then gtiLoop att rest false rc'
      else ⟨.error c, true, rc'⟩

/-- BinLogFileReader.__get_table_information: two attempts of the column
query, threading the connection flag through the loop. -/
def getTableInformation (att : Nat → AttemptResult) (conn0 : Bool) : CtlTrace :=
  gtiLoop att [1, 2] conn0 0

/-! ### Helper lemmas -/

theorem except_map_ok {ε α β : Type} (f : α → β) (a : α) :
    Except.map (ε := ε) f (.ok a) = .ok (f a) := rfl

theorem except_map_error {ε α β : Type} (f : α → β) (e : ε) :
    Except.map (ε := ε) f (.error e) = .error e := rfl

theorem decodePacket_eq_some {cfg : ReaderCfg} {p : Packet} {c : EventClass}
    (h : decodePacket cfg p = some c) : c = p.cls := by
  unfold decodePacket at h
  split at h
  · exact (Option.some.inj h).symm
  · exact absurd h (by simp)

theorem decode_rotate (cfg : ReaderCfg) (p : Packet) (h : p.cls = .Rotate) :
    decodePacket cfg p = some .Rotate := by
  simp [decodePacket, allowedInPacket, h]

theorem eventTypeCode_eq_rotate {c : EventClass} :
    eventTypeCode c = ROTATE_EVENT ↔ c = .Rotate := by
  cases c <;> simp [eventTypeCode, ROTATE_EVENT]

theorem eventTypeCode_eq_tablemap {c : EventClass} :
    eventTypeCode c = TABLE_MAP_EVENT ↔ c = .TableMap := by
  cases c <;> simp [eventTypeCode, TABLE_MAP_EVENT]

theorem processOne_decode_none (cfg : ReaderCfg) (st : ReaderState) (p : Packet)
    (h : decodePacket cfg p = none) : processOne cfg st p = .ok (st, .skip) := by
  simp [processOne, h]

theorem processOne_start_none (cfg : ReaderCfg) (st : ReaderState) (p : Packet)
    {c : EventClass} (hd : decodePacket cfg p = some c) (hs : cfg.start_pos = none) :
    processOne cfg st p = .error .typeError := by
  simp [processOne, hd, hs]

theorem processOne_some (cfg : ReaderCfg) (st : ReaderState) (p : Packet)
    {c : EventClass} {s : Nat}
    (hd : decodePacket cfg p = some c) (hs : cfg.start_pos = some s) :
    processOne cfg st p =
      if p.log_pos < s then .ok (st, .skip)
      else if stopHit cfg p then .ok (st, .halt)
      else if tsSkip cfg p then .ok (updState st p c, .skip)
      else if c ∈ cfg.allowed_events then .ok (tmState (updState st p c) p c, .emit p)
      else .ok (tmState (updState st p c) p c, .skip) := by
  simp [processOne, hd, hs]

theorem updState_table_map (st : ReaderState) (p : Packet) (c : EventClass)
    (hc : c ≠ .Rotate) : (updState st p c).table_map = st.table_map := by
  unfold updState
  rw [if_neg (fun hh => hc (eventTypeCode_eq_rotate.mp hh))]
  split <;> rfl

theorem tableMapPut_keys (m : List (Nat × Nat)) (k v : Nat) :
    ∀ x ∈ m.map Prod.fst, x ∈ (tableMapPut m k v).map Prod.fst := by
  intro x hx
  unfold tableMapPut
  split
  · rcases List.mem_map.mp hx with ⟨kv, hkv, hfst⟩
    refine List.mem_map.mpr ⟨if kv.1 = k then (k, v) else kv, List.mem_map_of_mem _ hkv, ?_⟩
    by_cases hk : kv.1 = k
    · rw [if_pos hk]
      exact hk ▸ hfst
    · rw [if_neg hk]
      exact hfst
  · rw [List.map_append]
    exact List.mem_append_left _ hx

theorem registry_keys_mono (st : ReaderState) (p : Packet) (c : EventClass)
    (hc : c ≠ .Rotate) :
    ∀ k ∈ st.table_map.map Prod.fst,
      k ∈ (tmState (updState st p c) p c).table_map.map Prod.fst := by
  intro k hk
  unfold tmState
  split
  · have : (tableMapPut (updState st p c).table_map p.table_id p.table_schema) =
        tableMapPut st.table_map p.table_id p.table_schema := by
      rw [updState_table_map st p c hc]
    simp only [this]
    exact tableMapPut_keys st.table_map p.table_id p.table_schema k hk
  · rw [updState_table_map st p c hc]
    exact hk

/-! ### C1 -/

/-- C1: whenever a decoded event of type ROTATE_EVENT passes the position
filters in fetchone, the reader state becomes log_pos = rotation position,
log_file = next_binlog, table_map = empty (whatever the later timestamp or
allowed-event filters decide); and no other step of the loop ever removes
a key from table_map, so the registry is cleared exactly at observed
rotations. -/
theorem c1_rotate_clears_registry :
    (∀ (cfg : ReaderCfg) (st : ReaderState) (p : Packet) (s : Nat),
      cfg.start_pos = some s → s ≤ p.log_pos → stopHit cfg p = false →
      p.cls = .Rotate →
      ∃ out, processOne cfg st p =
        .ok (⟨some p.position, some p.next_binlog, []⟩, out)) ∧
    (∀ (cfg : ReaderCfg) (st : ReaderState) (p : Packet) (st' : ReaderState)
      (out : StepOut), processOne cfg st p = .ok (st', out) →
      (st'.table_map = [] ∧ p.cls = .Rotate) ∨
      (∀ k ∈ st.table_map.map Prod.fst, k ∈ st'.table_map.map Prod.fst)) := by
  constructor
  · intro cfg st p s hs hle hstop hr
    have hd := decode_rotate cfg p hr
    rw [processOne_some cfg st p hd hs, if_neg (not_lt.mpr hle),
        if_neg (by simp [hstop])]
    have hupd : updState st p .Rotate = ⟨some p.position, some p.next_binlog, []⟩ := by
      simp [updState, eventTypeCode, ROTATE_EVENT]
    have htm : tmState (updState st p .Rotate) p .Rotate = updState st p .Rotate := by
      simp [tmState, eventTypeCode, TABLE_MAP_EVENT]
    by_cases hts : tsSkip cfg p = true
    · exact ⟨.skip, by rw [if_pos hts, hupd]⟩
    · rw [if_neg hts]
      by_cases hmem : EventClass.Rotate ∈ cfg.allowed_events
      · exact ⟨.emit p, by rw [if_pos hmem, htm, hupd]⟩
      · exact ⟨.skip, by rw [if_neg hmem, htm, hupd]⟩
  · intro cfg st p st' out h
    cases hd : decodePacket cfg p with
    | none =>
      rw [processOne_decode_none cfg st p hd] at h
      simp only [Except.ok.injEq, Prod.mk.injEq] at h
      right
      rw [← h.1]
      exact fun k hk => hk
    | some c =>
      have hcp := decodePacket_eq_some hd
      cases hsp : cfg.start_pos with
      | none =>
        rw [processOne_start_none cfg st p hd hsp] at h
        simp at h
      | some s =>
        rw [processOne_some cfg st p hd hsp] at h
        by_cases hlt : p.log_pos < s
        · rw [if_pos hlt] at h
          simp only [Except.ok.injEq, Prod.mk.injEq] at h
          right; rw [← h.1]; exact fun k hk => hk
        · rw [if_neg hlt] at h
          by_cases hstop : stopHit cfg p = true
          · rw [if_pos hstop] at h
            simp only [Except.ok.injEq, Prod.mk.injEq] at h
            right; rw [← h.1]; exact fun k hk => hk
          · rw [if_neg hstop] at h
            by_cases hc : c = .Rotate
            · have hpr : p.cls = .Rotate := by rw [← hcp]; exact hc
              have hclear : (updState st p c).table_map = [] := by
                simp [updState, hc, eventTypeCode, ROTATE_EVENT]
              have htm : (tmState (updState st p c) p c).table_map = [] := by
                unfold tmState
                rw [if_neg (by simp [hc, eventTypeCode, TABLE_MAP_EVENT])]
                exact hclear
              left
              refine ⟨?_, hpr⟩
              by_cases hts : tsSkip cfg p = true
              · rw [if_pos hts] at h
                simp only [Except.ok.injEq, Prod.mk.injEq] at h
                rw [← h.1]; exact hclear
              · rw [if_neg hts] at h
                by_cases hmem : c ∈ cfg.allowed_events
                · rw [if_pos hmem] at h
                  simp only [Except.ok.injEq, Prod.mk.injEq] at h
                  rw [← h.1]; exact htm
                · rw [if_neg hmem] at h
                  simp only [Except.ok.injEq, Prod.mk.injEq] at h
                  rw [← h.1]; exact htm
            · right
              by_cases hts : tsSkip cfg p = true
              · rw [if_pos hts] at h
                simp only [Except.ok.injEq, Prod.mk.injEq] at h
                rw [← h.1]
                intro k hk
                rw [updState_table_map st p c hc]
                exact hk
              · rw [if_neg hts] at h
                by_cases hmem : c ∈ cfg.allowed_events
                · rw [if_pos hmem] at h
                  simp only [Except.ok.injEq, Prod.mk.injEq] at h
                  rw [← h.1]
                  exact registry_keys_mono st p c hc
                · rw [if_neg hmem] at h
                  simp only [Except.ok.injEq, Prod.mk.injEq] at h
                  rw [← h.1]
                  exact registry_keys_mono st p c hc

/-- A concrete reader configuration used by the witnesses. -/
def cfgW : ReaderCfg := ⟨some 4, none, none, defaultEventSet⟩

/-- A concrete reader state with one registry entry. -/
def stW : ReaderState := ⟨some 4, none, [(7, 1)]⟩

/-- A concrete rotate packet. -/
def pRot : Packet := ⟨0, .Rotate, 120, 4, "mysql-bin.000002", 0, 0⟩

/-- A concrete query packet. -/
def pQ : Packet := ⟨1000, .Query, 200, 0, "", 0, 0⟩

/-- The state after processing pQ from stW. -/
def stW2 : ReaderState := ⟨some 200, none, [(7, 1)]⟩

/-- Witness for C1 at a concrete rotation and a concrete query event. -/
theorem c1_rotate_clears_registry_witness :
    (cfgW.start_pos = some 4 ∧ 4 ≤ pRot.log_pos ∧ stopHit cfgW pRot = false ∧
      pRot.cls = EventClass.Rotate ∧
      ∃ out, processOne cfgW stW pRot =
        .ok (⟨some pRot.position, some pRot.next_binlog, []⟩, out)) ∧
    (processOne cfgW stW pQ = .ok (stW2, .emit pQ) ∧
      ((stW2.table_map = [] ∧ pQ.cls = .Rotate) ∨
        (∀ k ∈ stW.table_map.map Prod.fst, k ∈ stW2.table_map.map Prod.fst))) :=
  ⟨⟨rfl, by decide, by decide, rfl,
    c1_rotate_clears_registry.1 cfgW stW pRot 4 rfl (by decide) (by decide) rfl⟩,
   ⟨by decide,
    c1_rotate_clears_registry.2 cfgW stW pQ stW2 (.emit pQ) (by decide)⟩⟩

/-! ### C2 -/

theorem processOne_emit_inv {cfg : ReaderCfg} {st : ReaderState} {p : Packet}
    {st' : ReaderState} {q : Packet}
    (h : processOne cfg st p = .ok (st', .emit q)) :
    q = p ∧ (∀ s, cfg.start_pos = some s → s ≤ p.log_pos) ∧ stopHit cfg p = false := by
  cases hd : decodePacket cfg p with
  | none =>
    rw [processOne_decode_none cfg st p hd] at h
    simp at h
  | some c =>
    cases hsp : cfg.start_pos with
    | none => rw [processOne_start_none cfg st p hd hsp] at h; simp at h
    | some s =>
      rw [processOne_some cfg st p hd hsp] at h
      by_cases hlt : p.log_pos < s
      · rw [if_pos hlt] at h; simp at h
      · rw [if_neg hlt] at h
        by_cases hstop : stopHit cfg p = true
        · rw [if_pos hstop] at h; simp at h
        · rw [if_neg hstop] at h
          by_cases hts : tsSkip cfg p = true
          · rw [if_pos hts] at h; simp at h
          · rw [if_neg hts] at h
            by_cases hmem : c ∈ cfg.allowed_events
            · rw [if_pos hmem] at h
              simp only [Except.ok.injEq, Prod.mk.injEq, StepOut.emit.injEq] at h
              refine ⟨h.2.symm, ?_, by simpa using hstop⟩
              intro s2 hs2
              cases hs2
              exact not_lt.mp hlt
            · rw [if_neg hmem] at h; simp at h

/-- C2 (amended): with start_pos = S and a nonzero stop_pos = E, every event
in the emitted stream satisfies S ≤ log_pos < E.  The claim as stated also
asserts this for E = 0, where the Python truthiness test `if self.stop_pos`
disables the stop check entirely; see the counterexample. -/
theorem c2_position_window (cfg : ReaderCfg) (S E : Nat)
    (hS : cfg.start_pos = some S) (hE : cfg.stop_pos = some E) (hE1 : 1 ≤ E) :
    ∀ (ps : List Packet) (st : ReaderState) (res : List Packet),
      emittedEvents cfg st ps = .ok res →
      ∀ q ∈ res, S ≤ q.log_pos ∧ q.log_pos < E := by
  intro ps
  induction ps with
  | nil =>
    intro st res h q hq
    simp only [emittedEvents, Except.ok.injEq] at h
    rw [← h] at hq
    cases hq
  | cons p rest ih =>
    intro st res h q hq
    cases hp : processOne cfg st p with
    | error e => simp only [emittedEvents, hp] at h; cases h
    | ok pr =>
      obtain ⟨st', out⟩ := pr
      cases out with
      | emit q2 =>
        simp only [emittedEvents, hp] at h
        cases hrest : emittedEvents cfg st' rest with
        | error e => simp [hrest] at h
        | ok l =>
          simp only [hrest, Except.ok.injEq] at h
          rw [← h] at hq
          rcases List.mem_cons.mp hq with hq1 | hq2
          · subst hq1
            obtain ⟨hqp, hstart, hstop⟩ := processOne_emit_inv hp
            subst hqp
            refine ⟨hstart S hS, ?_⟩
            have hEne : (E != 0) = true := by
              simpa using Nat.one_le_iff_ne_zero.mp hE1
            unfold stopHit at hstop
            rw [hE] at hstop
            simp [truthyOpt, hEne] at hstop
            omega
          · exact ih st' l hrest q hq2
      | skip =>
        simp only [emittedEvents, hp] at h
        exact ih st' res h q hq
      | halt =>
        simp only [emittedEvents, hp, Except.ok.injEq] at h
        rw [← h] at hq
        cases hq

/-- The configuration of the C2 counterexample: start_pos 0, stop_pos 0. -/
def cfgC2 : ReaderCfg := ⟨some 0, some 0, none, defaultEventSet⟩

/-- An empty initial reader state. -/
def stEmpty : ReaderState := ⟨none, none, []⟩

/-- A query packet at log position 5. -/
def pC2 : Packet := ⟨0, .Query, 5, 0, "", 0, 0⟩

/-- Counterexample to C2 as stated: with S = 0 and E = 0 (so S ≤ E), the
truthiness test `if self.stop_pos` is false and fetchone emits the event at
log position 5, violating log_pos < E. -/
theorem c2_position_window_counterexample :
    fetchone cfgC2 stEmpty [pC2] = .ok (some pC2, ⟨some 5, none, []⟩, []) ∧
      ¬(pC2.log_pos < 0) :=
  ⟨by decide, by decide⟩

/-- Query packets at the positions of the spec scenario. -/
def p120 : Packet := ⟨0, .Query, 120, 0, "", 0, 0⟩

def p260 : Packet := ⟨0, .Query, 260, 0, "", 0, 0⟩

def p540 : Packet := ⟨0, .Query, 540, 0, "", 0, 0⟩

/-- The configuration of the C2 witness: start_pos 4, stop_pos 540. -/
def cfgC2w : ReaderCfg := ⟨some 4, some 540, none, defaultEventSet⟩

/-- Witness for the amended C2 on a concrete stream. -/
theorem c2_position_window_witness :
    cfgC2w.start_pos = some 4 ∧ cfgC2w.stop_pos = some 540 ∧ 1 ≤ 540 ∧
      emittedEvents cfgC2w stEmpty [p120, p260, p540] = .ok [p120, p260] ∧
      ∀ q ∈ [p120, p260], 4 ≤ q.log_pos ∧ q.log_pos < 540 :=
  ⟨rfl, rfl, by decide, by decide,
   c2_position_window cfgC2w 4 540 rfl rfl (by decide)
     [p120, p260, p540] stEmpty [p120, p260] (by decide)⟩

/-! ### C3 -/

/-- A file holding only the four magic bytes. -/
def magicOnlyFile : List Nat := expectedMagic

/-- A file with valid magic followed by a 5-byte trailing fragment. -/
def truncatedFile : List Nat := expectedMagic ++ [1, 2, 3, 4, 5]

/-- A file whose single frame declares event_size = 30 but whose body is
truncated to 2 bytes. -/
def truncatedBodyFile : List Nat :=
  expectedMagic ++ [0, 0, 0, 0, 2, 1, 0, 0, 0, 30, 0, 0, 0, 50, 0, 0, 0, 0, 0] ++ [9, 9]

/-- Counterexample to C3 as stated: on a file ending in a 5-byte fragment
(fewer than 19 header bytes remaining, count in 1..18) the reader raises a
struct unpacking error instead of signalling clean end-of-file, because the
source only treats an empty read (`if not header`) as end-of-stream. -/
theorem c3_truncated_frame_counterexample :
    firstFetchFrame truncatedFile = .error .structError ∧
      firstFetchFrame truncatedFile ≠ .ok none :=
  ⟨by decide, by decide⟩

/-- C3 (amended): after a valid magic, clean end-of-file is signalled exactly
when zero bytes remain — in particular the magic-only file yields zero
events and clean EOF — while a trailing fragment of 1 to 18 bytes makes
struct.unpack raise; a complete header with a truncated body is not detected
at the frame layer: the short body is returned with the frame. -/
theorem c3_truncation_behavior (file : List Nat) (hm : file.take 4 = expectedMagic) :
    (file.length = 4 → firstFetchFrame file = .ok none) ∧
    (4 < file.length → file.length < 23 → firstFetchFrame file = .error .structError) ∧
    nextFrame truncatedBodyFile 4 = .ok (some (⟨0, 2, 1, 30, 50, 0, [9, 9]⟩, 25)) := by
  refine ⟨?_, ?_, by decide⟩
  · intro h4
    have hdrop : file.drop 4 = [] := List.drop_eq_nil_of_le (le_of_eq h4)
    simp [firstFetchFrame, connectToStream, hm, nextFrame, hdrop]
  · intro hlo hhi
    have hlen : ((file.drop 4).take 19).length = file.length - 4 := by
      rw [List.length_take, List.length_drop]
      omega
    have hne : (file.drop 4).take 19 ≠ [] := by
      intro hnil
      rw [hnil] at hlen
      simp at hlen
      omega
    have hlt : file.length - 4 < 19 := by omega
    simp [firstFetchFrame, connectToStream, hm, nextFrame, hne, hlt]

/-- Witness for the amended C3 at the magic-only file and at the 5-byte
fragment file. -/
theorem c3_truncation_behavior_witness :
    magicOnlyFile.take 4 = expectedMagic ∧ truncatedFile.take 4 = expectedMagic ∧
      firstFetchFrame magicOnlyFile = .ok none ∧
      firstFetchFrame truncatedFile = .error .structError :=
  ⟨by decide, by decide,
   (c3_truncation_behavior magicOnlyFile (by decide)).1 (by decide),
   (c3_truncation_behavior truncatedFile (by decide)).2.1 (by decide) (by decide)⟩

/-! ### C4 -/

/-- A file whose single frame declares event_size = 0, followed by 3 bytes. -/
def smallSizeFile : List Nat :=
  expectedMagic ++ [0, 0, 0, 0, 2, 1, 0, 0, 0, 0, 0, 0, 0, 50, 0, 0, 0, 0, 0] ++ [9, 9, 9]

/-- C4: fetchone never raises EventSizeTooSmallError — the exception class is
defined (source lines 339-341) but no branch of the frame reader produces
it.  On a frame declaring event_size = 0 (< 19), self._file.read(0 - 19)
reads with a negative size, which in Python consumes every remaining byte of
the file as the body, as the second conjunct evaluates. -/
theorem c4_event_size_never_raised :
    (∀ (file : List Nat) (pos : Nat),
      nextFrame file pos ≠ .error .eventSizeTooSmall) ∧
    nextFrame smallSizeFile 4 = .ok (some (⟨0, 2, 1, 0, 50, 0, [9, 9, 9]⟩, 26)) := by
  constructor
  · intro file pos h
    unfold nextFrame at h
    by_cases h1 : (file.drop pos).take 19 = []
    · simp [h1] at h
    · by_cases hc : file.length - pos < 19
      · simp [h1, hc] at h
      · simp [h1, hc] at h
  · decide

/-- Witness for C4 at the event_size = 0 file. -/
theorem c4_event_size_never_raised_witness :
    nextFrame smallSizeFile 4 ≠ .error .eventSizeTooSmall :=
  c4_event_size_never_raised.1 smallSizeFile 4

/-! ### C5 -/

/-- C5 (amended): on an OperationalError with code 2013 or 2006 the resolver
marks the connection closed and reconnects before retrying exactly once
(two attempts in total); an OperationalError with any other code is
re-raised unchanged from either attempt; but when the retry also fails with
a code in 2013/2006 the loop is exhausted and the Python function falls
through, returning None to the caller instead of escalating the failure. -/
theorem c5_metadata_retry (att : Nat → AttemptResult) (conn0 : Bool) :
    (∀ r, att 1 = .success r →
      (getTableInformation att conn0).result = .ok (some r)) ∧
    (∀ c, att 1 = .opError c → c ∉ MYSQL_EXPECTED_ERROR_CODES →
      (getTableInformation att conn0).result = .error c) ∧
    (∀ c r, att 1 = .opError c → c ∈ MYSQL_EXPECTED_ERROR_CODES →
      att 2 = .success r →
      getTableInformation att conn0 = ⟨.ok (some r), true, if conn0 then 1 else 2⟩) ∧
    (∀ c c2, att 1 = .opError c → c ∈ MYSQL_EXPECTED_ERROR_CODES →
      att 2 = .opError c2 → c2 ∉ MYSQL_EXPECTED_ERROR_CODES →
      (getTableInformation att conn0).result = .error c2) ∧
    (∀ c c2, att 1 = .opError c → c ∈ MYSQL_EXPECTED_ERROR_CODES →
      att 2 = .opError c2 → c2 ∈ MYSQL_EXPECTED_ERROR_CODES →
      getTableInformation att conn0 = ⟨.ok none, false, if conn0 then 1 else 2⟩) := by
  refine ⟨?_, ?_, ?_, ?_, ?_⟩
  · intro r h1
    cases conn0 <;> simp [getTableInformation, gtiLoop, h1]
  · intro c h1 hc
    cases conn0 <;> simp [getTableInformation, gtiLoop, h1, hc]
  · intro c r h1 hc h2
    cases conn0 <;> simp [getTableInformation, gtiLoop, h1, hc, h2]
  · intro c c2 h1 hc h2 hc2
    cases conn0 <;> simp [getTableInformation, gtiLoop, h1, hc, h2, hc2]
  · intro c c2 h1 hc h2 hc2
    cases conn0 <;> simp [getTableInformation, gtiLoop, h1, hc, h2, hc2]

/-- The attempt oracle that always fails with code 2013. -/
def attAlways2013 : Nat → AttemptResult := fun _ => .opError 2013

/-- Counterexample to C5 as stated: when the retry also fails with code
2013, __get_table_information exhausts its loop and returns None — the
connection is left marked closed and no error is escalated to the caller. -/
theorem c5_metadata_retry_counterexample :
    getTableInformation attAlways2013 true = ⟨.ok none, false, 1⟩ ∧
      (getTableInformation attAlways2013 true).result ≠ .error 2013 :=
  ⟨by decide, by decide⟩

/-- The attempt oracle that fails once with 2013 and then succeeds. -/
def attRetry : Nat → AttemptResult :=
  fun i => if i = 1 then .opError 2013 else .success 7

/-- Witness for the amended C5: one transient 2013 failure, then a
successful retry over a fresh connection. -/
theorem c5_metadata_retry_witness :
    attRetry 1 = .opError 2013 ∧ 2013 ∈ MYSQL_EXPECTED_ERROR_CODES ∧
      attRetry 2 = .success 7 ∧
      getTableInformation attRetry true = ⟨.ok (some 7), true, 1⟩ :=
  ⟨by decide, by decide, by decide,
   (c5_metadata_retry attRetry true).2.2.1 2013 7 (by decide) (by decide) (by decide)⟩

/-! ### C6 -/

/-- C6: when stop_pos is a nonzero E and a ROTATE event that passed the
start filter has log_pos ≥ E, fetchone breaks out of the loop at that
rotation and returns the end-of-stream value with the state exactly as it
was: log_file, log_pos and table_map are untouched (the stop check at
source line 198 runs before the rotation handling at lines 201-213). -/
theorem c6_stop_rotate_not_applied (cfg : ReaderCfg) (st : ReaderState)
    (p : Packet) (rest : List Packet) (s E : Nat)
    (hs : cfg.start_pos = some s) (h1 : s ≤ p.log_pos)
    (hE : cfg.stop_pos = some E) (hE0 : 0 < E) (h2 : E ≤ p.log_pos)
    (hr : p.cls = .Rotate) :
    fetchone cfg st (p :: rest) = .ok (none, st, rest) := by
  have hd := decode_rotate cfg p hr
  have hstop : stopHit cfg p = true := by
    unfold stopHit
    rw [hE]
    have hEne : E ≠ 0 := Nat.pos_iff_ne_zero.mp hE0
    simp [truthyOpt, h2, hEne]
  have hp : processOne cfg st p = .ok (st, .halt) := by
    rw [processOne_some cfg st p hd hs, if_neg (not_lt.mpr h1), if_pos hstop]
  simp [fetchone, hp]

/-- The configuration of the C6 witness: start_pos 4, stop_pos 100. -/
def cfgC6 : ReaderCfg := ⟨some 4, some 100, none, defaultEventSet⟩

/-- Witness for C6: a rotation at log position 120 crossing stop_pos 100
terminates the stream without clearing the registry of stW. -/
theorem c6_stop_rotate_not_applied_witness :
    cfgC6.start_pos = some 4 ∧ 4 ≤ pRot.log_pos ∧ cfgC6.stop_pos = some 100 ∧
      0 < 100 ∧ 100 ≤ pRot.log_pos ∧ pRot.cls = EventClass.Rotate ∧
      fetchone cfgC6 stW [pRot] = .ok (none, stW, []) :=
  ⟨rfl, by decide, rfl, by decide, by decide, rfl,
   c6_stop_rotate_not_applied cfgC6 stW pRot [] 4 100 rfl (by decide) rfl
     (by decide) (by decide) rfl⟩

/-! ### C7 -/

/-- C7: the skip-to-timestamp filter runs after rotation handling — a ROTATE
that passes the position filters but whose timestamp is below a positive
skip_to_timestamp is dropped from the output, yet log_pos, log_file and the
cleared table_map have already been applied, so the timestamp filter can
never leave the registry un-cleared for an observed rotation. -/
theorem c7_skip_ts_after_rotate (cfg : ReaderCfg) (st : ReaderState) (p : Packet)
    (s T : Nat) (hs : cfg.start_pos = some s) (h1 : s ≤ p.log_pos)
    (hstop : stopHit cfg p = false)
    (hT : cfg.skip_to_timestamp = some T) (hT0 : 0 < T) (hts : p.timestamp < T)
    (hr : p.cls = .Rotate) :
    fetchone cfg st [p] = .ok (none, ⟨some p.position, some p.next_binlog, []⟩, []) := by
  have hd := decode_rotate cfg p hr
  have htss : tsSkip cfg p = true := by
    unfold tsSkip
    rw [hT]
    have hTne : T ≠ 0 := Nat.pos_iff_ne_zero.mp hT0
    simp [truthyOpt, hts, hTne]
  have hupd : updState st p .Rotate = ⟨some p.position, some p.next_binlog, []⟩ := by
    simp [updState, eventTypeCode, ROTATE_EVENT]
  have hp : processOne cfg st p = .ok (⟨some p.position, some p.next_binlog, []⟩, .skip) := by
    rw [processOne_some cfg st p hd hs, if_neg (not_lt.mpr h1),
        if_neg (by simp [hstop]), if_pos htss, hupd]
  simp [fetchone, hp]

/-- The configuration of the C7 witness: start_pos 4, skip_to_timestamp
1000. -/
def cfgC7 : ReaderCfg := ⟨some 4, none, some 1000, defaultEventSet⟩

/-- Witness for C7: the timestamp-0 rotation is dropped from the output but
its state updates, including the registry clear, are applied. -/
theorem c7_skip_ts_after_rotate_witness :
    cfgC7.start_pos = some 4 ∧ 4 ≤ pRot.log_pos ∧ stopHit cfgC7 pRot = false ∧
      cfgC7.skip_to_timestamp = some 1000 ∧ 0 < 1000 ∧ pRot.timestamp < 1000 ∧
      pRot.cls = EventClass.Rotate ∧
      fetchone cfgC7 stW [pRot] =
        .ok (none, ⟨some pRot.position, some pRot.next_binlog, []⟩, []) :=
  ⟨rfl, by decide, by decide, rfl, by decide, by decide, rfl,
   c7_skip_ts_after_rotate cfgC7 stW pRot 4 1000 rfl (by decide) (by decide) rfl
     (by decide) (by decide) rfl⟩

/-! ### C8 -/

/-- C8 (amended): constructing the reader without an explicit log_pos leaves
start_pos = None — BinLogFileReader has no default of 4 (the default of 4
belongs to the CLI argument parser, not the reader) — and the comparison
binlog_event.log_pos < self.start_pos then raises TypeError on the first
decoded event instead of dropping exactly the events before position 4. -/
theorem c8_start_pos_default (lf : Option String) (stp sk : Option Nat)
    (oe ie : Option (List EventClass)) (f : Bool)
    (cfg : ReaderCfg) (st0 : ReaderState)
    (h : mkReader none lf stp sk oe ie f = .ok (cfg, st0)) :
    cfg.start_pos = none ∧
      ∀ (st : ReaderState) (p : Packet) (c : EventClass),
        decodePacket cfg p = some c → processOne cfg st p = .error .typeError := by
  have hcfg : cfg.start_pos = none := by
    cases hA : allowedEventList oe ie f with
    | error e =>
      simp only [mkReader, hA] at h
      cases h
    | ok evs =>
      simp only [mkReader, hA, Except.ok.injEq, Prod.mk.injEq] at h
      rw [← h.1]
  refine ⟨hcfg, ?_⟩
  intro st p c hd
  exact processOne_start_none cfg st p hd hcfg

/-- The configuration produced by constructing the reader with all-default
arguments: no start position, NotImplemented filtered from the default
event set. -/
def cfgC8 : ReaderCfg := ⟨none, none, none, defaultEventSet.erase .NotImplemented⟩

/-- Counterexample to C8 as stated: the reader constructed without a
log_pos argument has start_pos = None, not 4, and the position comparison
raises TypeError on the first decoded event instead of dropping events
before position 4. -/
theorem c8_start_pos_default_counterexample :
    mkReader none none none none none none true = .ok (cfgC8, ⟨none, none, []⟩) ∧
      cfgC8.start_pos ≠ some 4 ∧
      processOne cfgC8 stEmpty pC2 = .error .typeError :=
  ⟨by decide, by decide, by decide⟩

/-- Witness for the amended C8 at the all-default construction. -/
theorem c8_start_pos_default_witness :
    mkReader none none none none none none true = .ok (cfgC8, ⟨none, none, []⟩) ∧
      cfgC8.start_pos = none ∧
      processOne cfgC8 stEmpty pC2 = .error .typeError :=
  ⟨by decide,
   (c8_start_pos_default none none none none none true cfgC8 ⟨none, none, []⟩ (by decide)).1,
   (c8_start_pos_default none none none none none true cfgC8 ⟨none, none, []⟩
     (by decide)).2 stEmpty pC2 .Query (by decide)⟩

/-! ### C10 -/

theorem allowedEventList_erase (oe ie : Option (List EventClass))
    (A : Finset EventClass) (h : allowedEventList oe ie false = .ok A) :
    allowedEventList oe ie true = .ok (A.erase .NotImplemented) := by
  unfold allowedEventList at h ⊢
  cases hrem : removedEvents oe ie with
  | error e => simp [hrem] at h
  | ok evs =>
    simp only [hrem] at h ⊢
    simp at h ⊢
    rw [h]

/-- C10: removing an ignored event class that is not a member of the
current allowed set raises an uncaught KeyError from _allowed_event_list —
both for a class omitted from a supplied only_events list and for a class
listed twice in ignored_events — while the NotImplementedEvent removal done
for filter_non_implemented_events never raises, even when that class is
already absent. -/
theorem c10_ignored_events_keyerror :
    (∀ (l : List EventClass) (e : EventClass) (f : Bool), e ∉ l.toFinset →
      allowedEventList (some l) (some [e]) f = .error .keyError) ∧
    (∀ (e : EventClass) (f : Bool),
      allowedEventList none (some [e, e]) f = .error .keyError) ∧
    (∀ (oe ie : Option (List EventClass)) (A : Finset EventClass),
      allowedEventList oe ie false = .ok A →
      allowedEventList oe ie true = .ok (A.erase .NotImplemented)) := by
  refine ⟨?_, ?_, allowedEventList_erase⟩
  · intro l e f he
    simp [allowedEventList, removedEvents, baseEvents, removeEvents, he]
  · intro e f
    have hmem : e ∈ defaultEventSet := by cases e <;> decide
    have hnm : e ∉ defaultEventSet.erase e := Finset.not_mem_erase e _
    simp [allowedEventList, removedEvents, baseEvents, removeEvents, hmem, hnm]

/-- Witness for C10: a KeyError from an ignored class missing from
only_events, a KeyError from a duplicated ignored class, and the
never-raising NotImplementedEvent removal on the default construction. -/
theorem c10_ignored_events_keyerror_witness :
    (EventClass.Rotate ∉ [EventClass.Query].toFinset) ∧
      allowedEventList (some [EventClass.Query]) (some [EventClass.Rotate]) false =
        .error .keyError ∧
      allowedEventList none (some [EventClass.Gtid, EventClass.Gtid]) true =
        .error .keyError ∧
      allowedEventList none none true = .ok (defaultEventSet.erase .NotImplemented) :=
  ⟨by decide,
   c10_ignored_events_keyerror.1 [EventClass.Query] EventClass.Rotate false (by decide),
   c10_ignored_events_keyerror.2.1 EventClass.Gtid true,
   c10_ignored_events_keyerror.2.2 none none defaultEventSet rfl⟩

/-! ### C9 -/

theorem decode_erase_eq (cfgT cfgF : ReaderCfg)
    (hAe : cfgT.allowed_events = cfgF.allowed_events.erase .NotImplemented)
    (p : Packet) :
    decodePacket cfgT p =
      if p.cls = .NotImplemented then none else decodePacket cfgF p := by
  unfold decodePacket allowedInPacket
  rw [hAe]
  by_cases hnie : p.cls = .NotImplemented
  · rw [if_pos hnie, if_neg]
    intro hm
    rcases Finset.mem_union.mp hm with h1 | h2
    · rw [hnie] at h1
      exact absurd h1 (by decide)
    · exact Finset.not_mem_erase _ _ (hnie ▸ h2)
  · rw [if_neg hnie]
    have hiff : (p.cls ∈ ({.TableMap, .Rotate} : Finset EventClass) ∪
          cfgF.allowed_events.erase .NotImplemented) ↔
        (p.cls ∈ ({.TableMap, .Rotate} : Finset EventClass) ∪ cfgF.allowed_events) := by
      simp [Finset.mem_union, Finset.mem_erase, hnie]
    by_cases hm : p.cls ∈ ({.TableMap, .Rotate} : Finset EventClass) ∪ cfgF.allowed_events
    · rw [if_pos (hiff.mpr hm), if_pos hm]
    · rw [if_neg (fun hh => hm (hiff.mp hh)), if_neg hm]

theorem emitted_all_halt (cfg : ReaderCfg) (s : Nat) (hs : cfg.start_pos = some s)
    (ht : truthyOpt cfg.stop_pos = true) :
    ∀ (ps : List Packet), (∀ q ∈ ps, cfg.stop_pos.getD 0 ≤ q.log_pos) →
      ∀ st, emittedEvents cfg st ps = .ok [] := by
  intro ps
  induction ps with
  | nil => intro _ st; simp [emittedEvents]
  | cons p rest ih =>
    intro hall st
    cases hd : decodePacket cfg p with
    | none =>
      simp only [emittedEvents, processOne_decode_none cfg st p hd]
      exact ih (fun q hq => hall q (List.mem_cons_of_mem p hq)) st
    | some c =>
      by_cases hlt : p.log_pos < s
      · have hp : processOne cfg st p = .ok (st, .skip) := by
          rw [processOne_some cfg st p hd hs, if_pos hlt]
        simp only [emittedEvents, hp]
        exact ih (fun q hq => hall q (List.mem_cons_of_mem p hq)) st
      · have hstop : stopHit cfg p = true := by
          unfold stopHit
          rw [ht]
          simp [hall p (List.mem_cons_self p rest)]
        have hp : processOne cfg st p = .ok (st, .halt) := by
          rw [processOne_some cfg st p hd hs, if_neg hlt, if_pos hstop]
        simp [emittedEvents, hp]

theorem emitted_filter_nie (cfgT cfgF : ReaderCfg) (s : Nat)
    (hsT : cfgT.start_pos = some s) (hsF : cfgF.start_pos = some s)
    (hstopEq : cfgT.stop_pos = cfgF.stop_pos)
    (hskEq : cfgT.skip_to_timestamp = cfgF.skip_to_timestamp)
    (hAe : cfgT.allowed_events = cfgF.allowed_events.erase .NotImplemented) :
    ∀ (ps : List Packet),
      List.Pairwise (fun a b => a.log_pos ≤ b.log_pos) ps →
      ∀ (st1 st2 : ReaderState),
        emittedEvents cfgT st1 ps =
          Except.map (List.filter keepEvent) (emittedEvents cfgF st2 ps) := by
  have hstopHit : ∀ q, stopHit cfgT q = stopHit cfgF q := by
    intro q; unfold stopHit; rw [hstopEq]
  have htsSkip : ∀ q, tsSkip cfgT q = tsSkip cfgF q := by
    intro q; unfold tsSkip; rw [hskEq]
  intro ps
  induction ps with
  | nil => intro _ st1 st2; simp [emittedEvents, Except.map]
  | cons p rest ih =>
    intro hmono st1 st2
    have h1 : ∀ q ∈ rest, p.log_pos ≤ q.log_pos := (List.pairwise_cons.mp hmono).1
    have h2 : List.Pairwise (fun a b => a.log_pos ≤ b.log_pos) rest :=
      (List.pairwise_cons.mp hmono).2
    have hdec := decode_erase_eq cfgT cfgF hAe p
    by_cases hnie : p.cls = .NotImplemented
    · -- NotImplemented packet: invisible to the erased-set run
      have hdT : decodePacket cfgT p = none := by rw [hdec, if_pos hnie]
      have hpT := processOne_decode_none cfgT st1 p hdT
      cases hdF : decodePacket cfgF p with
      | none =>
        have hpF := processOne_decode_none cfgF st2 p hdF
        simp only [emittedEvents, hpT, hpF]
        exact ih h2 st1 st2
      | some c =>
        have hc : c = p.cls := decodePacket_eq_some hdF
        by_cases hlt : p.log_pos < s
        · have hpF : processOne cfgF st2 p = .ok (st2, .skip) := by
            rw [processOne_some cfgF st2 p hdF hsF, if_pos hlt]
          simp only [emittedEvents, hpT, hpF]
          exact ih h2 st1 st2
        · by_cases hstop : stopHit cfgF p = true
          · have hpF : processOne cfgF st2 p = .ok (st2, .halt) := by
              rw [processOne_some cfgF st2 p hdF hsF, if_neg hlt, if_pos hstop]
            simp only [emittedEvents, hpT, hpF]
            obtain ⟨htr, hge⟩ := (Bool.and_eq_true _ _).mp (by
              unfold stopHit at hstop; exact hstop)
            have htT : truthyOpt cfgT.stop_pos = true := by rw [hstopEq]; exact htr
            have hall : ∀ q ∈ rest, cfgT.stop_pos.getD 0 ≤ q.log_pos := by
              intro q hq
              rw [hstopEq]
              exact le_trans (of_decide_eq_true hge) (h1 q hq)
            rw [emitted_all_halt cfgT s hsT htT rest hall st1]
            simp [Except.map]
          · by_cases hts : tsSkip cfgF p = true
            · have hpF : processOne cfgF st2 p =
                  .ok (updState st2 p c, .skip) := by
                rw [processOne_some cfgF st2 p hdF hsF, if_neg hlt, if_neg hstop,
                    if_pos hts]
              simp only [emittedEvents, hpT, hpF]
              exact ih h2 st1 (updState st2 p c)
            · by_cases hmemF : c ∈ cfgF.allowed_events
              · have hpF : processOne cfgF st2 p =
                    .ok (tmState (updState st2 p c) p c, .emit p) := by
                  rw [processOne_some cfgF st2 p hdF hsF, if_neg hlt, if_neg hstop,
                      if_neg hts, if_pos hmemF]
                simp only [emittedEvents, hpT, hpF]
                cases hrest : emittedEvents cfgF (tmState (updState st2 p c) p c) rest with
                | error e =>
                  rw [ih h2 st1 (tmState (updState st2 p c) p c), hrest]
                | ok l =>
                  rw [ih h2 st1 (tmState (updState st2 p c) p c), hrest]
                  simp [Except.map, List.filter_cons, keepEvent, hnie]
              · have hpF : processOne cfgF st2 p =
                    .ok (tmState (updState st2 p c) p c, .skip) := by
                  rw [processOne_some cfgF st2 p hdF hsF, if_neg hlt, if_neg hstop,
                      if_neg hts, if_neg hmemF]
                simp only [emittedEvents, hpT, hpF]
                exact ih h2 st1 (tmState (updState st2 p c) p c)
    · -- a packet whose class is not NotImplemented decodes identically
      have hdT : decodePacket cfgT p = decodePacket cfgF p := by
        rw [hdec, if_neg hnie]
      cases hdF : decodePacket cfgF p with
      | none =>
        have hdT2 : decodePacket cfgT p = none := by rw [hdT, hdF]
        simp only [emittedEvents, processOne_decode_none cfgT st1 p hdT2,
          processOne_decode_none cfgF st2 p hdF]
        exact ih h2 st1 st2
      | some c =>
        have hc : c = p.cls := decodePacket_eq_some hdF
        have hdT2 : decodePacket cfgT p = some c := by rw [hdT, hdF]
        by_cases hlt : p.log_pos < s
        · have hpT : processOne cfgT st1 p = .ok (st1, .skip) := by
            rw [processOne_some cfgT st1 p hdT2 hsT, if_pos hlt]
          have hpF : processOne cfgF st2 p = .ok (st2, .skip) := by
            rw [processOne_some cfgF st2 p hdF hsF, if_pos hlt]
          simp only [emittedEvents, hpT, hpF]
          exact ih h2 st1 st2
        · by_cases hstop : stopHit cfgF p = true
          · have hpT : processOne cfgT st1 p = .ok (st1, .halt) := by
              rw [processOne_some cfgT st1 p hdT2 hsT, if_neg hlt,
                  if_pos ((hstopHit p).trans hstop)]
            have hpF : processOne cfgF st2 p = .ok (st2, .halt) := by
              rw [processOne_some cfgF st2 p hdF hsF, if_neg hlt, if_pos hstop]
            simp only [emittedEvents, hpT, hpF]
            simp [Except.map]
          · have hstopT : ¬stopHit cfgT p = true := by rw [hstopHit p]; exact hstop
            by_cases hts : tsSkip cfgF p = true
            · have hpT : processOne cfgT st1 p = .ok (updState st1 p c, .skip) := by
                rw [processOne_some cfgT st1 p hdT2 hsT, if_neg hlt, if_neg hstopT,
                    if_pos ((htsSkip p).trans hts)]
              have hpF : processOne cfgF st2 p = .ok (updState st2 p c, .skip) := by
                rw [processOne_some cfgF st2 p hdF hsF, if_neg hlt, if_neg hstop,
                    if_pos hts]
              simp only [emittedEvents, hpT, hpF]
              exact ih h2 (updState st1 p c) (updState st2 p c)
            · have htsT : ¬tsSkip cfgT p = true := by rw [htsSkip p]; exact hts
              by_cases hmemF : c ∈ cfgF.allowed_events
              · have hmemT : c ∈ cfgT.allowed_events := by
                  rw [hAe]
                  exact Finset.mem_erase.mpr ⟨by rw [hc]; exact hnie, hmemF⟩
                have hpT : processOne cfgT st1 p =
                    .ok (tmState (updState st1 p c) p c, .emit p) := by
                  rw [processOne_some cfgT st1 p hdT2 hsT, if_neg hlt, if_neg hstopT,
                      if_neg htsT, if_pos hmemT]
                have hpF : processOne cfgF st2 p =
                    .ok (tmState (updState st2 p c) p c, .emit p) := by
                  rw [processOne_some cfgF st2 p hdF hsF, if_neg hlt, if_neg hstop,
                      if_neg hts, if_pos hmemF]
                simp only [emittedEvents, hpT, hpF]
                cases hrest : emittedEvents cfgF (tmState (updState st2 p c) p c) rest with
                | error e =>
                  rw [ih h2 (tmState (updState st1 p c) p c)
                      (tmState (updState st2 p c) p c), hrest]
                  simp [Except.map]
                | ok l =>
                  rw [ih h2 (tmState (updState st1 p c) p c)
                      (tmState (updState st2 p c) p c), hrest]
                  simp [Except.map, List.filter_cons, keepEvent, hnie]
              · have hmemT : c ∉ cfgT.allowed_events := by
                  rw [hAe]
                  exact fun hh => hmemF (Finset.mem_of_mem_erase hh)
                have hpT : processOne cfgT st1 p =
                    .ok (tmState (updState st1 p c) p c, .skip) := by
                  rw [processOne_some cfgT st1 p hdT2 hsT, if_neg hlt, if_neg hstopT,
                      if_neg htsT, if_neg hmemT]
                have hpF : processOne cfgF st2 p =
                    .ok (tmState (updState st2 p c) p c, .skip) := by
                  rw [processOne_some cfgF st2 p hdF hsF, if_neg hlt, if_neg hstop,
                      if_neg hts, if_neg hmemF]
                simp only [emittedEvents, hpT, hpF]
                exact ih h2 (tmState (updState st1 p c) p c)
                  (tmState (updState st2 p c) p c)

/-- C9: the allowed set computed with filter_non_implemented_events = true
equals the set computed with it false minus NotImplementedEvent, and on any
packet stream with non-decreasing log positions (as binlog files have) the
event sequence emitted under the true flag is exactly the false-flag
sequence with the NotImplementedEvent values deleted — in particular it is
a subsequence of it. -/
theorem c9_filter_nie_subsequence (oe ie : Option (List EventClass))
    (A : Finset EventClass) (hA : allowedEventList oe ie false = .ok A)
    (s : Nat) (stp sk : Option Nat) (ps : List Packet)
    (hmono : List.Pairwise (fun a b => a.log_pos ≤ b.log_pos) ps)
    (st1 st2 : ReaderState) :
    allowedEventList oe ie true = .ok (A.erase .NotImplemented) ∧
    emittedEvents ⟨some s, stp, sk, A.erase .NotImplemented⟩ st1 ps =
      Except.map (List.filter keepEvent)
        (emittedEvents ⟨some s, stp, sk, A⟩ st2 ps) ∧
    (∀ l1 l2,
      emittedEvents ⟨some s, stp, sk, A.erase .NotImplemented⟩ st1 ps = .ok l1 →
      emittedEvents ⟨some s, stp, sk, A⟩ st2 ps = .ok l2 → l1.Sublist l2) := by
  have hfil := emitted_filter_nie ⟨some s, stp, sk, A.erase .NotImplemented⟩
    ⟨some s, stp, sk, A⟩ s rfl rfl rfl rfl rfl ps hmono st1 st2
  refine ⟨allowedEventList_erase oe ie A hA, hfil, ?_⟩
  intro l1 l2 hl1 hl2
  rw [hl1, hl2] at hfil
  simp [Except.map] at hfil
  rw [hfil]
  exact List.filter_sublist l2

/-- A NotImplemented packet at log position 100. -/
def pNI : Packet := ⟨0, .NotImplemented, 100, 0, "", 0, 0⟩

/-- A query packet at log position 200. -/
def pQ2 : Packet := ⟨0, .Query, 200, 0, "", 0, 0⟩

/-- Witness for C9 on a concrete monotone two-packet stream: the run with
the flag on emits [pQ2], the run with it off emits [pNI, pQ2]. -/
theorem c9_filter_nie_subsequence_witness :
    allowedEventList none none false = .ok defaultEventSet ∧
      List.Pairwise (fun a b => a.log_pos ≤ b.log_pos) [pNI, pQ2] ∧
      emittedEvents ⟨some 4, none, none, defaultEventSet.erase .NotImplemented⟩
          stEmpty [pNI, pQ2] =
        Except.map (List.filter keepEvent)
          (emittedEvents ⟨some 4, none, none, defaultEventSet⟩ stEmpty [pNI, pQ2]) :=
  ⟨rfl, by decide,
   (c9_filter_nie_subsequence none none defaultEventSet rfl 4 none none
     [pNI, pQ2] (by decide) stEmpty stEmpty).2.1⟩
